import Mathlib

/-!
Shallow embedding of the bevy_lazy_signals core (the lazy reactive cell in
src/signals.rs, the public API in src/api.rs, the subscription helper in
src/arcane_wizardry.rs, and the system pipeline in src/lib.rs), with
theorems settling the specification's claims about it.

Bevy entity identifiers are modelled as natural numbers; the sparse set
of entities is modelled as a list of entities where insertion adds the
entity only when it is absent, matching set-membership semantics.
-/

/-- Bevy entity handle: an opaque stable identifier, modelled as a natural
number. -/
abbrev Entity := Nat

/-- Embedding of `EntitySet` (`SparseSet<Entity, ()>` in `signals.rs`),
by its membership semantics: `List.insert` adds an entity only when it is
absent. -/
abbrev EntitySet := List Entity

/-- Embedding of `empty_set()` from `signals.rs`. -/
def empty_set : EntitySet := []

/-- Embedding of `SignalsError` from `signals.rs`: the read errors of the
public API (`api.rs` spells the same two roles `LazySignalsError`). -/
inductive SignalsError where
  | ReadError (entity : Entity)
  | NoSignalError
deriving DecidableEq, Repr

/-- Embedding of `SignalsResult<T>` from `signals.rs`. -/
abbrev SignalsResult (T : Type) := Except SignalsError T

/-- Alias used by `src/api.rs` for the same error type. -/
abbrev LazySignalsError := SignalsError

/-- Embedding of `LazySignalsResult<T>` as used by `src/api.rs`
(`end_effect` returns `Some(Ok(()))`): an optional result, where `none`
means the function produced no value. -/
abbrev LazySignalsResult (T : Type) := Option (Except LazySignalsError T)

/-- Embedding of `LazyImmutable<T>` from `signals.rs`: an observable cell
holding the committed value, the staged pending value, and a
double-buffered subscriber set. -/
structure LazyImmutable (T : Type) where
  data : T
  next_value : Option T
  subscribers : EntitySet
  next_subscribers : EntitySet
deriving DecidableEq, Repr

namespace LazyImmutable

/-- Embedding of `LazyImmutable::new` from `signals.rs`. -/
def new (data : T) : LazyImmutable T :=
  { data := data, next_value := none, subscribers := empty_set,
    next_subscribers := empty_set }

/-- Embedding of `Immutable::merge_next` for `LazyImmutable` (`signals.rs`
lines 109-111): stage a pending value. -/
def merge_next (cell : LazyImmutable T) (next : T) : LazyImmutable T :=
  { cell with next_value := some next }

/-- Embedding of `Immutable::read` for `LazyImmutable` (`signals.rs` lines
113-115). -/
def read (cell : LazyImmutable T) : T :=
  cell.data

/-- Embedding of `UntypedObservable::subscribe` for `LazyImmutable`
(`signals.rs` lines 164-166): stage a subscriber into `next_subscribers`. -/
def subscribe (cell : LazyImmutable T) (entity : Entity) : LazyImmutable T :=
  { cell with next_subscribers := cell.next_subscribers.insert entity }

/-- Embedding of `Immutable::value` for `LazyImmutable` (`signals.rs` lines
117-120): subscribe the caller, then read; returns the value and the
mutated cell. -/
def value (cell : LazyImmutable T) (caller : Entity) : T × LazyImmutable T :=
  let cell := cell.subscribe caller
  (cell.read, cell)

/-- Embedding of `UntypedObservable::get_subscribers` for `LazyImmutable`
(`signals.rs` lines 124-131): copy the live subscribers into an output
vector. -/
def get_subscribers (cell : LazyImmutable T) : List Entity :=
  cell.subscribers

/-- Embedding of `UntypedObservable::merge` for `LazyImmutable`
(`signals.rs` lines 133-155): if a pending value exists and differs from
`data`, commit it, return the live subscribers and clear them; always
clear `next_value`. -/
def merge [DecidableEq T] (cell : LazyImmutable T) :
    List Entity × LazyImmutable T :=
  match cell.next_value with
  | some next =>
      if cell.data ≠ next then
        (cell.get_subscribers,
         { cell with data := next, subscribers := [], next_value := none })
      else
        ([], { cell with next_value := none })
  | none => ([], { cell with next_value := none })

/-- Embedding of `UntypedObservable::merge_subscribers` for `LazyImmutable`
(`signals.rs` lines 157-162): fold every staged subscriber into the live
set, then clear the staging set. -/
def merge_subscribers (cell : LazyImmutable T) : LazyImmutable T :=
  { cell with
    subscribers := cell.next_subscribers.foldl (fun s e => s.insert e) cell.subscribers,
    next_subscribers := [] }

end LazyImmutable

/-- Cell-level operations of the framework: the `Immutable` and
`UntypedObservable` methods of `signals.rs` that mutate a cell, plus the
subscription helper of `arcane_wizardry.rs` (lines 80-128), whose closure
runs `observable.subscribe(*target); observable.merge_subscribers();` on
the source cell. -/
inductive CellOp (T : Type) where
  | mergeNext (v : T)
  | doMerge
  | doValue (caller : Entity)
  | doSubscribe (caller : Entity)
  | mergeSubs
  | arcaneSubscribe (caller : Entity)
deriving DecidableEq, Repr

/-- Effect of one cell-level operation on the cell state. -/
def CellOp.apply [DecidableEq T] : CellOp T → LazyImmutable T → LazyImmutable T
  | .mergeNext v, c => c.merge_next v
  | .doMerge, c => (c.merge).2
  | .doValue e, c => (c.value e).2
  | .doSubscribe e, c => c.subscribe e
  | .mergeSubs, c => c.merge_subscribers
  | .arcaneSubscribe e, c => (c.subscribe e).merge_subscribers

/-- Effect of a sequence of cell-level operations, first operation first. -/
def applyOps [DecidableEq T] (ops : List (CellOp T)) (c : LazyImmutable T) :
    LazyImmutable T :=
  ops.foldl (fun c op => op.apply c) c

/-- Modelled from the spec: the framework observable cell targeted by
`store_result` in `src/api.rs` (its module, `framework/lazy_immutable.rs`,
is not under `src/`). Per spec section 4.1 the cell keeps a committed
`data` value and a staged `next_value`, and the `update` method invoked by
`store_result` stages a pending result without mutating `data` (the
`merge_next` contract). Subscriber bookkeeping is omitted: the claim about
this cell concerns only value storage. -/
structure LazySignalsState (T : Type) where
  data : LazySignalsResult T
  next_value : LazySignalsResult T
deriving Repr

/-- Modelled from the spec: the `update` method called by `store_result`
(`framework/lazy_immutable.rs` is not under `src/`): stage the supplied
result as the cell's pending value (spec section 4.1, `merge_next`). -/
def LazySignalsState.update (cell : LazySignalsState T)
    (next : LazySignalsResult T) : LazySignalsState T :=
  { cell with next_value := next }

/-- Embedding of `store_result` from `src/api.rs` lines 49-53:
`bucket.update(data.map(|data| Ok(data)))`. -/
def store_result (data : Option T) (bucket : LazySignalsState T) :
    LazySignalsState T :=
  bucket.update (data.map Except.ok)

/-- Embedding of the propagator context produced by `make_propagator_with`
(`src/api.rs` lines 29-41), at one invocation against the target cell: run
the closure on the materialized arguments, log when the result is an error
(a no-op in this embedding), then pass the result — `Err` exactly like
`Ok` — to `store_result`. Rust type inference instantiates `store_result`
at `T = Result<R, LazySignalsError>`, so the stored value type is the
result type itself. -/
def make_propagator_with {P R : Type} (closure : P → LazySignalsResult R)
    (tuple : P) (bucket : LazySignalsState (SignalsResult R)) :
    LazySignalsState (SignalsResult R) :=
  store_result (closure tuple) bucket

/-- Closed universe of registered value types, standing in for the type
parameter of the generic public API (`lib.rs` registers bool, u32, f64,
&'static str and unit; the claims need no float arithmetic, so the float
case is left out of the universe). -/
inductive Ty where
  | bool
  | int
  | str
  | unit
deriving DecidableEq, Repr

/-- Concrete Lean type denoted by each registered value type. -/
@[reducible]
def Ty.interp : Ty → Type
  | .bool => Bool
  | .int => Nat
  | .str => String
  | .unit => Unit

/-- Equality on each registered value type is decidable (the Rust bound
`PartialEq` on `LazyImmutable`). -/
def Ty.decEq : (t : Ty) → DecidableEq t.interp
  | .bool => inferInstanceAs (DecidableEq Bool)
  | .int => inferInstanceAs (DecidableEq Nat)
  | .str => inferInstanceAs (DecidableEq String)
  | .unit => inferInstanceAs (DecidableEq Unit)

instance (t : Ty) : DecidableEq t.interp := t.decEq

/-- Host entity store, standing in for the Bevy `World` (spec section 1
treats it as an external collaborator): each entity optionally carries one
typed observable cell. -/
structure World where
  cells : Entity → Option ((t : Ty) × LazyImmutable t.interp)

/-- Embedding of `world.entity(e).get::<LazyImmutable<R>>()`: the cell at
the entity, provided its recorded type matches the requested one. -/
def World.get (w : World) (t : Ty) (e : Entity) :
    Option (LazyImmutable t.interp) :=
  match w.cells e with
  | some ⟨ty, cell⟩ => if h : ty = t then some (h ▸ cell) else none
  | none => none

/-- Writing a cell back into the store (the effect of a mutable component
access). -/
def World.set (w : World) (e : Entity) (t : Ty) (cell : LazyImmutable t.interp) :
    World :=
  ⟨fun x => if x = e then some ⟨t, cell⟩ else w.cells x⟩

/-- Commands staged on the Bevy command queue by the public API
(`commands.send_signal` / `commands.trigger_signal` in `src/api.rs`; the
queue is flushed by the host between ticks). -/
inductive SignalCommand where
  | send_signal (signal : Entity) (t : Ty) (data : t.interp)
  | trigger_signal (signal : Entity) (t : Ty) (data : t.interp)

/-- Host command queue, in staging order. -/
abbrev Commands := List SignalCommand

namespace LazySignals

/-- Embedding of `LazySignals::read` from `src/api.rs` lines 82-99: `None`
handle yields `NoSignalError`; a handle whose entity lacks a cell of the
requested type yields `ReadError`; otherwise the stored value is returned
via the cell's subscription-free `read`. -/
def read (t : Ty) (immutable : Option Entity) (w : World) :
    SignalsResult t.interp :=
  match immutable with
  | some immutable =>
      match w.get t immutable with
      | some observable => Except.ok observable.read
      | none => Except.error (SignalsError.ReadError immutable)
  | none => Except.error SignalsError.NoSignalError

/-- Embedding of `LazySignals::read` together with the world it leaves
behind: the Rust signature borrows the `World` immutably (`&World`), so
the world after a read is the world passed in. -/
def read_world (t : Ty) (immutable : Option Entity) (w : World) :
    SignalsResult t.interp × World :=
  (read t immutable w, w)

/-- Embedding of `LazySignals::value` from `src/api.rs` lines 129-147:
like `read`, but resolves the cell mutably and calls the cell's `value`,
which subscribes the caller before reading. -/
def value (t : Ty) (immutable : Option Entity) (caller : Entity) (w : World) :
    SignalsResult t.interp × World :=
  match immutable with
  | some immutable =>
      match w.get t immutable with
      | some observable =>
          (Except.ok (observable.value caller).1,
           w.set immutable t (observable.value caller).2)
      | none => (Except.error (SignalsError.ReadError immutable), w)
  | none => (Except.error SignalsError.NoSignalError, w)

/-- Embedding of `LazySignals::send` from `src/api.rs` lines 101-110:
with a `Some` handle, stage a `send_signal` command; with `None`, do
nothing. -/
def send (t : Ty) (signal : Option Entity) (data : t.interp)
    (commands : Commands) : Commands :=
  match signal with
  | some signal => commands ++ [SignalCommand.send_signal signal t data]
  | none => commands

/-- Embedding of `LazySignals::trigger` from `src/api.rs` lines 118-127:
with a `Some` handle, stage a `trigger_signal` command; with `None`, do
nothing. -/
def trigger (t : Ty) (signal : Option Entity) (data : t.interp)
    (commands : Commands) : Commands :=
  match signal with
  | some signal => commands ++ [SignalCommand.trigger_signal signal t data]
  | none => commands

end LazySignals

/-- Names of the reference-implementation systems chained by `src/lib.rs`
(their bodies live in `src/systems/`, which is not under `src/`). -/
inductive SystemId where
  | check_tasks
  | init_effects
  | init_computeds
  | send_signals
  | compute_memos
  | apply_deferred_effects
deriving DecidableEq, Repr

/-- Embedding of `lazy_signals_full_systems` from `src/lib.rs` lines 49-58:
the six systems, chained in this exact order (`.chain()` makes the order
total); the plugin schedules exactly this chain once per tick. -/
def lazy_signals_full_systems : List SystemId :=
  [SystemId.check_tasks, SystemId.init_effects, SystemId.init_computeds,
   SystemId.send_signals, SystemId.compute_memos,
   SystemId.apply_deferred_effects]

/-- Phases of the tick pipeline named by the specification (section 4.3). -/
inductive Phase where
  | reapAsyncTasks
  | establishNewSubscriptions
  | applyExternalWrites
  | propagateComputedWave
  | runDeferredEffects
deriving DecidableEq, Repr

/-- Modelled from the spec: which pipeline phase each system of `lib.rs`
implements (the system bodies, under `src/systems/`, are not in `src/`);
spec section 4.3 names check_tasks the reap phase, init_effects and
init_computeds the subscription phase, send_signals the external-write
phase, compute_memos the computed wave, and apply_deferred_effects the
deferred-effect phase. -/
def phaseOf : SystemId → Phase
  | .check_tasks => .reapAsyncTasks
  | .init_effects => .establishNewSubscriptions
  | .init_computeds => .establishNewSubscriptions
  | .send_signals => .applyExternalWrites
  | .compute_memos => .propagateComputedWave
  | .apply_deferred_effects => .runDeferredEffects

/-- Membership after folding `List.insert` over a list: an entity is in
the result iff it was in the accumulator or in the folded list. -/
theorem mem_foldl_insert (l : List Entity) (s : EntitySet) (a : Entity) :
    a ∈ l.foldl (fun s e => s.insert e) s ↔ a ∈ s ∨ a ∈ l := by
  induction l generalizing s with
  | nil => simp
  | cons e l ih =>
      simp only [List.foldl_cons, ih, List.mem_insert_iff, List.mem_cons]
      tauto

/-- C1: `merge()` commits a staged value that differs from `data`,
returning the live subscribers and clearing them; with no staged value, or
a staged value equal to `data`, it returns the empty set; in every case it
clears `next_value`. Staging a value equal to the current one yields no
returned subscribers. -/
theorem c1_merge_contract {T : Type} [DecidableEq T] (cell : LazyImmutable T) :
    (∀ v, cell.next_value = some v → v ≠ cell.data →
      cell.merge = (cell.get_subscribers,
        { cell with data := v, subscribers := [], next_value := none })) ∧
    (cell.next_value = none → cell.merge.1 = []) ∧
    (∀ v, cell.next_value = some v → v = cell.data →
      cell.merge = ([], { cell with next_value := none })) ∧
    cell.merge.2.next_value = none ∧
    (∀ v, v = cell.data → ((cell.merge_next v).merge).1 = []) := by
  obtain ⟨data, next_value, subscribers, next_subscribers⟩ := cell
  refine ⟨?_, ?_, ?_, ?_, ?_⟩
  · rintro v h hne
    simp only [LazyImmutable.merge] at *
    simp_all [Ne.symm hne]
  · rintro h
    simp_all [LazyImmutable.merge]
  · rintro v h he
    simp_all [LazyImmutable.merge]
  · rcases next_value with _ | v
    · simp [LazyImmutable.merge]
    · by_cases h : data = v <;> simp [LazyImmutable.merge, h]
  · rintro v rfl
    simp [LazyImmutable.merge, LazyImmutable.merge_next]

/-- C1 witness: the contract evaluated on a concrete cell. -/
theorem c1_merge_contract_witness :
    (LazyImmutable.mk 3 (some 5) [1, 2] [9] : LazyImmutable Nat).merge =
      ([1, 2], LazyImmutable.mk 5 none [] [9]) ∧
    ((LazyImmutable.mk 3 (some 5) [1, 2] [9] : LazyImmutable Nat).merge_next 3).merge.1 = [] := by
  have h := c1_merge_contract (LazyImmutable.mk 3 (some 5) [1, 2] [9] : LazyImmutable Nat)
  exact ⟨h.1 5 rfl (by decide), h.2.2.2.2 3 rfl⟩

/-- C2: a subscriber staged via `subscribe` (or `value`) lands only in
`next_subscribers`; it does not appear in `get_subscribers()` or in the
set returned by `merge()` until `merge_subscribers()` commits it, after
which a change-carrying `merge()` does notify it. -/
theorem c2_staged_subscriber_isolation {T : Type} [DecidableEq T]
    (cell : LazyImmutable T) (e : Entity) (h : e ∉ cell.subscribers) :
    e ∈ (cell.subscribe e).next_subscribers ∧
    (cell.subscribe e).get_subscribers = cell.get_subscribers ∧
    e ∉ (cell.subscribe e).get_subscribers ∧
    e ∉ ((cell.subscribe e).merge).1 ∧
    (cell.value e).2 = cell.subscribe e ∧
    e ∈ ((cell.subscribe e).merge_subscribers).subscribers ∧
    (∀ v, v ≠ ((cell.subscribe e).merge_subscribers).data →
      e ∈ ((((cell.subscribe e).merge_subscribers).merge_next v).merge).1) := by
  obtain ⟨data, next_value, subscribers, next_subscribers⟩ := cell
  refine ⟨?_, rfl, h, ?_, rfl, ?_, ?_⟩
  · simp [LazyImmutable.subscribe, List.mem_insert_iff]
  · rcases next_value with _ | v
    · simp [LazyImmutable.merge, LazyImmutable.subscribe]
    · by_cases hv : data = v <;>
        simp_all [LazyImmutable.merge, LazyImmutable.subscribe,
          LazyImmutable.get_subscribers]
  · simp [LazyImmutable.merge_subscribers, LazyImmutable.subscribe,
      mem_foldl_insert, List.mem_insert_iff]
  · intro v hv
    simp only [LazyImmutable.merge_next, LazyImmutable.merge,
      LazyImmutable.merge_subscribers, LazyImmutable.subscribe] at *
    simp only [Ne.symm hv, if_pos, ite_not, if_neg]
    simp_all [LazyImmutable.get_subscribers, mem_foldl_insert,
      List.mem_insert_iff, Ne.symm hv]

/-- C2 witness: the isolation property evaluated on a concrete cell and
subscriber. -/
theorem c2_staged_subscriber_isolation_witness :
    (7 : Entity) ∉ (LazyImmutable.mk 3 (some 5) [1, 2] [] : LazyImmutable Nat).subscribers ∧
    (7 : Entity) ∉
      (((LazyImmutable.mk 3 (some 5) [1, 2] [] : LazyImmutable Nat).subscribe 7).merge).1 := by
  refine ⟨by decide, ?_⟩
  exact (c2_staged_subscriber_isolation
    (LazyImmutable.mk 3 (some 5) [1, 2] [] : LazyImmutable Nat) 7 (by decide)).2.2.2.1

/-- C6: `merge_subscribers()` makes the live set the union of the previous
live and staged sets and empties the staging set; `subscribe(caller)`
stages the caller without touching the live set. -/
theorem c6_merge_subscribers_union {T : Type}
    (cell : LazyImmutable T) (e : Entity) :
    (∀ a, a ∈ (cell.merge_subscribers).subscribers ↔
      a ∈ cell.subscribers ∨ a ∈ cell.next_subscribers) ∧
    (cell.merge_subscribers).next_subscribers = [] ∧
    (cell.merge_subscribers).data = cell.data ∧
    (cell.merge_subscribers).next_value = cell.next_value ∧
    (cell.subscribe e).subscribers = cell.subscribers ∧
    (∀ a, a ∈ (cell.subscribe e).next_subscribers ↔
      a = e ∨ a ∈ cell.next_subscribers) := by
  refine ⟨?_, rfl, rfl, rfl, rfl, ?_⟩
  · intro a
    simp [LazyImmutable.merge_subscribers, mem_foldl_insert]
  · intro a
    simp [LazyImmutable.subscribe, List.mem_insert_iff]

/-- C8: `merge_next(value)` stages the value as `next_value` and leaves
`data`, the live subscribers, the staged subscribers, and the
`get_subscribers()` output unchanged: no notification is produced. -/
theorem c8_merge_next_stages_only {T : Type} (cell : LazyImmutable T) (v : T) :
    (cell.merge_next v).next_value = some v ∧
    (cell.merge_next v).data = cell.data ∧
    (cell.merge_next v).subscribers = cell.subscribers ∧
    (cell.merge_next v).next_subscribers = cell.next_subscribers ∧
    (cell.merge_next v).get_subscribers = cell.get_subscribers :=
  ⟨rfl, rfl, rfl, rfl, rfl⟩

/-- C9: when `merge()` takes the no-change branch (`next_value` absent or
equal to `data`), the live and staged subscriber sets and `data` survive
unchanged and no subscribers are returned; the live set is cleared only by
an actual change of value. -/
theorem c9_noop_merge_preserves_subscribers {T : Type} [DecidableEq T]
    (cell : LazyImmutable T) :
    (cell.next_value = none ∨ cell.next_value = some cell.data →
      cell.merge.2.subscribers = cell.subscribers ∧
      cell.merge.2.next_subscribers = cell.next_subscribers ∧
      cell.merge.2.data = cell.data ∧
      cell.merge.1 = []) ∧
    (cell.merge.2.subscribers ≠ cell.subscribers →
      ∃ v, cell.next_value = some v ∧ v ≠ cell.data ∧ cell.merge.2.data = v) := by
  obtain ⟨data, next_value, subscribers, next_subscribers⟩ := cell
  constructor
  · rintro (h | h) <;> simp_all [LazyImmutable.merge]
  · intro hne
    rcases next_value with _ | v
    · simp [LazyImmutable.merge] at hne
    · by_cases hv : data = v
      · simp_all [LazyImmutable.merge]
      · exact ⟨v, rfl, fun hc => hv (Eq.symm hc), by simp_all [LazyImmutable.merge]⟩

/-- C9 witness: a no-op merge on a concrete cell keeps its subscriber
sets. -/
theorem c9_noop_merge_preserves_subscribers_witness :
    (LazyImmutable.mk 3 (some 3) [1, 2] [4] : LazyImmutable Nat).merge.2.subscribers = [1, 2] ∧
    (LazyImmutable.mk 3 (some 3) [1, 2] [4] : LazyImmutable Nat).merge.1 = [] := by
  have h := (c9_noop_merge_preserves_subscribers
    (LazyImmutable.mk 3 (some 3) [1, 2] [4] : LazyImmutable Nat)).1 (Or.inr rfl)
  exact ⟨h.1, h.2.2.2⟩

/-- Step preservation for C4: a cell operation that is not a subscription
request for `e` (neither `value`, nor `subscribe`, nor the
`arcane_wizardry` helper, each with caller `e`) never puts `e` into the
live or staged subscriber sets. -/
theorem cellop_preserves_not_subscribed {T : Type} [DecidableEq T]
    (op : CellOp T) (cell : LazyImmutable T) (e : Entity)
    (h1 : e ∉ cell.subscribers) (h2 : e ∉ cell.next_subscribers)
    (hv : op ≠ CellOp.doValue e) (hs : op ≠ CellOp.doSubscribe e)
    (ha : op ≠ CellOp.arcaneSubscribe e) :
    e ∉ (op.apply cell).subscribers ∧ e ∉ (op.apply cell).next_subscribers := by
  cases op with
  | mergeNext v => exact ⟨h1, h2⟩
  | doMerge =>
      obtain ⟨data, next_value, subscribers, next_subscribers⟩ := cell
      rcases next_value with _ | v
      · exact ⟨h1, h2⟩
      · by_cases hd : data = v <;>
          simp_all [CellOp.apply, LazyImmutable.merge]
  | doValue c =>
      have hne : c ≠ e := by rintro rfl; exact hv rfl
      refine ⟨h1, ?_⟩
      simp only [CellOp.apply, LazyImmutable.value, LazyImmutable.subscribe,
        List.mem_insert_iff]
      rintro (rfl | hmem)
      · exact hne rfl
      · exact h2 hmem
  | doSubscribe c =>
      have hne : c ≠ e := by rintro rfl; exact hs rfl
      refine ⟨h1, ?_⟩
      simp only [CellOp.apply, LazyImmutable.subscribe, List.mem_insert_iff]
      rintro (rfl | hmem)
      · exact hne rfl
      · exact h2 hmem
  | mergeSubs =>
      refine ⟨?_, ?_⟩
      · simp only [CellOp.apply, LazyImmutable.merge_subscribers,
          mem_foldl_insert]
        rintro (hmem | hmem)
        · exact h1 hmem
        · exact h2 hmem
      · simp [CellOp.apply, LazyImmutable.merge_subscribers]
  | arcaneSubscribe c =>
      have hne : c ≠ e := by rintro rfl; exact ha rfl
      refine ⟨?_, ?_⟩
      · simp only [CellOp.apply, LazyImmutable.merge_subscribers,
          LazyImmutable.subscribe, mem_foldl_insert, List.mem_insert_iff]
        rintro (hmem | rfl | hmem)
        · exact h1 hmem
        · exact hne rfl
        · exact h2 hmem
      · simp [CellOp.apply, LazyImmutable.merge_subscribers,
          LazyImmutable.subscribe]

/-- Auxiliary for C4, lifted to operation sequences. -/
theorem applyOps_preserves_not_subscribed {T : Type} [DecidableEq T]
    (ops : List (CellOp T)) (cell : LazyImmutable T) (e : Entity)
    (h1 : e ∉ cell.subscribers) (h2 : e ∉ cell.next_subscribers)
    (hops : ∀ op ∈ ops, op ≠ CellOp.doValue e ∧ op ≠ CellOp.doSubscribe e ∧
      op ≠ CellOp.arcaneSubscribe e) :
    e ∉ (applyOps ops cell).subscribers ∧
    e ∉ (applyOps ops cell).next_subscribers := by
  induction ops generalizing cell with
  | nil => exact ⟨h1, h2⟩
  | cons op ops ih =>
      have hop := hops op (List.mem_cons_self op ops)
      have step := cellop_preserves_not_subscribed op cell e h1 h2
        hop.1 hop.2.1 hop.2.2
      exact ih (op.apply cell) step.1 step.2
        (fun o ho => hops o (List.mem_cons_of_mem op ho))

/-- C4 counterexample: it is not true that `value(caller)` is the only
path by which a consumer joins the notification set — staging via the
low-level `subscribe` and committing via `merge_subscribers` (exactly what
the `arcane_wizardry` subscription helper does) puts entity 1 into the
live subscriber set of a concrete cell although no `value` operation for
entity 1 ever ran. -/
theorem c4_value_only_path_counterexample :
    ¬ (∀ (cell : LazyImmutable Nat) (ops : List (CellOp Nat)) (e : Entity),
        e ∉ cell.subscribers →
        (∀ op ∈ ops, op ≠ CellOp.doValue e) →
        e ∉ (applyOps ops cell).subscribers) := by
  intro h
  exact (h (LazyImmutable.new 0)
      [CellOp.doSubscribe 1, CellOp.mergeSubs] 1 (by decide) (by decide))
    (by decide)

/-- C4 amended: `value(caller)` inserts the caller into `next_subscribers`
and returns `data` (the value `read()` returns, with `data` unchanged and
the live set untouched); and a consumer joins the notification set only
through the `subscribe()` staging primitive — invoked by `value()` or by a
direct subscription request such as the `arcane_wizardry` helper —
followed by a `merge_subscribers()` commit. -/
theorem c4_value_reads_and_subscribe_only_path {T : Type} [DecidableEq T]
    (cell : LazyImmutable T) (e : Entity) (ops : List (CellOp T))
    (h1 : e ∉ cell.subscribers) (h2 : e ∉ cell.next_subscribers)
    (hops : ∀ op ∈ ops, op ≠ CellOp.doValue e ∧ op ≠ CellOp.doSubscribe e ∧
      op ≠ CellOp.arcaneSubscribe e) :
    (cell.value e).1 = cell.read ∧
    (cell.value e).2.data = cell.data ∧
    e ∈ (cell.value e).2.next_subscribers ∧
    (cell.value e).2.subscribers = cell.subscribers ∧
    e ∉ (applyOps ops cell).subscribers ∧
    e ∉ (applyOps ops cell).next_subscribers := by
  have main := applyOps_preserves_not_subscribed ops cell e h1 h2 hops
  refine ⟨rfl, rfl, ?_, rfl, main.1, main.2⟩
  simp [LazyImmutable.value, LazyImmutable.subscribe, List.mem_insert_iff]

/-- C4 witness: the amended property evaluated on a concrete cell, entity
and operation sequence. -/
theorem c4_value_reads_and_subscribe_only_path_witness :
    ((LazyImmutable.new (0 : Nat)).value 1).1 = 0 ∧
    (1 : Entity) ∉ (applyOps
      [CellOp.mergeNext 5, CellOp.doMerge, CellOp.doValue 2, CellOp.mergeSubs]
      (LazyImmutable.new (0 : Nat))).subscribers := by
  have h := c4_value_reads_and_subscribe_only_path
    (LazyImmutable.new (0 : Nat)) 1
    [CellOp.mergeNext 5, CellOp.doMerge, CellOp.doValue 2, CellOp.mergeSubs]
    (by decide) (by decide) (by decide)
  exact ⟨h.1, h.2.2.2.2.1⟩

/-- C3: when a computed node's derivation closure returns an `Err`, the
propagator context stores it through exactly the same `store_result` path
as an `Ok` result — the result is staged whole into the cell, with `data`
untouched until the merge — so the error becomes the cell's observable
value, distinct from every `Ok` value, and the context returns normally
instead of aborting. -/
theorem c3_error_stored_like_ok {P R : Type} (closure : P → LazySignalsResult R)
    (tuple : P) (bucket : LazySignalsState (SignalsResult R))
    (e : LazySignalsError) (h : closure tuple = some (Except.error e)) :
    make_propagator_with closure tuple bucket = store_result (closure tuple) bucket ∧
    (make_propagator_with closure tuple bucket).next_value =
      some (Except.ok (Except.error e)) ∧
    (∀ v : R, (make_propagator_with (fun _ => some (Except.ok v)) tuple bucket).next_value =
      some (Except.ok (Except.ok v))) ∧
    (∀ r : SignalsResult R, (store_result (some r) bucket).next_value =
      some (Except.ok r)) ∧
    (make_propagator_with closure tuple bucket).data = bucket.data ∧
    (∀ v : R, (make_propagator_with closure tuple bucket).next_value ≠
      (make_propagator_with (fun _ => some (Except.ok v)) tuple bucket).next_value) := by
  refine ⟨rfl, ?_, fun v => rfl, fun r => rfl, rfl, ?_⟩
  · simp [make_propagator_with, store_result, LazySignalsState.update, h]
  · intro v
    simp [make_propagator_with, store_result, LazySignalsState.update, h]

/-- C3 witness: a concrete failing derivation staged into a concrete
cell. -/
theorem c3_error_stored_like_ok_witness :
    (make_propagator_with
      (fun _ => some (Except.error SignalsError.NoSignalError) :
        Unit → LazySignalsResult Nat) () ⟨none, none⟩).next_value =
      some (Except.ok (Except.error SignalsError.NoSignalError)) :=
  (c3_error_stored_like_ok
    (fun _ => some (Except.error SignalsError.NoSignalError) :
      Unit → LazySignalsResult Nat) () ⟨none, none⟩
    SignalsError.NoSignalError rfl).2.1

/-- C5: the public `read` fails with `NoSignalError` on an absent handle
and with `ReadError` when the entity carries no cell of the requested
type; otherwise it returns the stored value (`data`, via the
subscription-free cell `read`); and since it only borrows the world, the
world after a read is the world before it. -/
theorem c5_read_contract (t : Ty) (w : World) (e : Entity) :
    LazySignals.read t none w = Except.error SignalsError.NoSignalError ∧
    (w.get t e = none →
      LazySignals.read t (some e) w = Except.error (SignalsError.ReadError e)) ∧
    (∀ cell, w.get t e = some cell →
      LazySignals.read t (some e) w = Except.ok cell.read ∧
      cell.read = cell.data) ∧
    (LazySignals.read_world t (some e) w).2 = w ∧
    (LazySignals.read_world t none w).2 = w := by
  refine ⟨rfl, ?_, ?_, rfl, rfl⟩
  · intro h
    simp [LazySignals.read, h]
  · intro cell h
    exact ⟨by simp [LazySignals.read, h], rfl⟩

/-- C5 witness: the read contract evaluated on a concrete world holding
one integer cell at entity 0. -/
theorem c5_read_contract_witness :
    LazySignals.read Ty.int (some 0)
      (World.mk (fun e => if e = 0 then some ⟨Ty.int, LazyImmutable.new 7⟩ else none)) =
      Except.ok 7 ∧
    LazySignals.read Ty.int (some 1)
      (World.mk (fun e => if e = 0 then some ⟨Ty.int, LazyImmutable.new 7⟩ else none)) =
      Except.error (SignalsError.ReadError 1) ∧
    LazySignals.read Ty.int none
      (World.mk (fun e => if e = 0 then some ⟨Ty.int, LazyImmutable.new 7⟩ else none)) =
      Except.error SignalsError.NoSignalError := by
  refine ⟨?_, ?_, ?_⟩
  · exact ((c5_read_contract Ty.int
      (World.mk (fun e => if e = 0 then some ⟨Ty.int, LazyImmutable.new 7⟩ else none))
      0).2.2.1 (LazyImmutable.new 7) rfl).1
  · exact (c5_read_contract Ty.int
      (World.mk (fun e => if e = 0 then some ⟨Ty.int, LazyImmutable.new 7⟩ else none))
      1).2.1 rfl
  · exact (c5_read_contract Ty.int
      (World.mk (fun e => if e = 0 then some ⟨Ty.int, LazyImmutable.new 7⟩ else none))
      0).1

/-- C7: the full system chain of `lib.rs` runs its six systems in the
fixed total order check_tasks, init_effects, init_computeds, send_signals,
compute_memos, apply_deferred_effects; under the spec's phase naming this
is exactly reap-async-tasks, establish-new-subscriptions (effects then
computeds), apply-external-writes, propagate-computed-wave,
run-deferred-effects, with no phase omitted or reordered. -/
theorem c7_full_systems_phase_order :
    lazy_signals_full_systems =
      [SystemId.check_tasks, SystemId.init_effects, SystemId.init_computeds,
       SystemId.send_signals, SystemId.compute_memos,
       SystemId.apply_deferred_effects] ∧
    lazy_signals_full_systems.map phaseOf =
      [Phase.reapAsyncTasks, Phase.establishNewSubscriptions,
       Phase.establishNewSubscriptions, Phase.applyExternalWrites,
       Phase.propagateComputedWave, Phase.runDeferredEffects] :=
  ⟨rfl, rfl⟩

/-- C10: `send` and `trigger` on an absent (`None`) handle stage no
command and raise no error — the command queue is returned untouched —
whereas `read` and `value` on an absent handle return `NoSignalError`
(`value` also leaving the world untouched). -/
theorem c10_send_trigger_none_noop (t : Ty) (d : t.interp)
    (commands : Commands) (w : World) (caller : Entity) :
    LazySignals.send t none d commands = commands ∧
    LazySignals.trigger t none d commands = commands ∧
    LazySignals.read t none w = Except.error SignalsError.NoSignalError ∧
    (LazySignals.value t none caller w).1 =
      Except.error SignalsError.NoSignalError ∧
    (LazySignals.value t none caller w).2 = w :=
  ⟨rfl, rfl, rfl, rfl, rfl⟩
